import Mathlib

/-!
Verification of the authentication-token lifecycle and the RBAC decision
engine of the CodeBase repository, as a shallow embedding in Lean 4.

Python strings are embedded as Lean `String`; the two string operations the
privilege matcher uses (`s.split(":")[0]` and `s.endswith(":*")`) are
re-implemented over the underlying character list so that their behaviour is
provable.  Machine state (the relational Credential Store and the TTL
key/value Revocation Store) is passed explicitly.  Fallible operations
return `Except`.
-/

/-- `s.split(":")[0]` on the character list: the characters before the first
`':'`, or the whole list when no `':'` occurs (Python `str.split` always
returns a non-empty list, so indexing `[0]` is total). -/
def pyHeadSplitAux : List Char → List Char
  | [] => []
  | c :: cs => if c = ':' then [] else c :: pyHeadSplitAux cs

/-- Embedding of Python `s.split(":")[0]` (used at `src/_old/policies.py`
lines 86-87). -/
def pySplitHead (s : String) : String := ⟨pyHeadSplitAux s.data⟩

/-- Embedding of Python `s.endswith(":*")` (`src/_old/policies.py` line 85). -/
def pyEndsWithColonStar (s : String) : Bool := [':', '*'].isSuffixOf s.data

/-- `models/privilege.py` `Privilege` row: `name` (unique), `description`,
`entity`, `action`, plus the `BaseModel` soft-delete flag.  Ids are
abstracted to `Nat` (the code only compares them for identity). -/
structure Privilege where
  id : Nat
  name : String
  description : String
  entity : String
  action : String
  is_deleted : Bool
deriving DecidableEq

/-- Role row as consumed by `src/_old/policies.py`: the legacy model carries
`is_admin` (blanket-access flag), `is_active` and the soft-delete flag, and
its `role_privileges` association is embedded as the list `privileges`. -/
structure Role where
  id : Nat
  name : String
  is_admin : Bool
  is_active : Bool
  is_deleted : Bool
  privileges : List Privilege
deriving DecidableEq

/-- `models/user.py` `User` row with its `user_roles` association embedded
as the list `roles`.  `id` is the string form of the UUID primary key
(tokens carry it as the `sub` claim string). -/
structure User where
  id : String
  is_active : Bool
  is_superuser : Bool
  is_deleted : Bool
  roles : List Role
deriving DecidableEq

/-- The `current_user` dict that `RBACPolicy.check_permission` receives:
it reads keys `"is_superadmin"` (defaulting to false) and `"user_id"`. -/
structure CurrentUser where
  is_superadmin : Bool
  user_id : String
deriving DecidableEq

/-- The privilege-match test inlined in `RBACPolicy.check_permission`
(`src/_old/policies.py` lines 79-93): exact name equality, then the
resource-level wildcard (name ends in `":*"` and the prefixes before `':'`
agree), then the global wildcards `"*"` and `"*:*"`.  The Python loop
returns true on the first rule that fires, which is the disjunction. -/
def privilegeMatches (granted required : String) : Bool :=
  granted == required
    || (pyEndsWithColonStar granted && pySplitHead granted == pySplitHead required)
    || granted == "*" || granted == "*:*"

/-- `RBACPolicy.check_permission` (`src/_old/policies.py` lines 18-96).
The database session is embedded as the list of `User` rows (each carrying
its joined roles and privileges); the role query's filters
(`Role.is_deleted == False`, `Role.is_active == True`) and the privilege
query's filter (`Privilege.is_deleted == False`) become list filters. -/
def check_permission (required_privilege : String) (db : List User)
    (current_user : CurrentUser) : Bool :=
  if current_user.is_superadmin then
    true
  else
    match db.find? (fun u => u.id == current_user.user_id) with
    | none => false
    | some user =>
      if user.is_deleted || !user.is_active then
        false
      else
        let user_roles_list := user.roles.filter (fun r => !r.is_deleted && r.is_active)
        if user_roles_list.isEmpty then
          false
        else
          user_roles_list.any (fun role =>
            role.is_admin
              || (role.privileges.filter (fun p => !p.is_deleted)).any
                  (fun p => privilegeMatches p.name required_privilege))

/-- `require_privileges` from `src/core/auth.py` lines 60-76.  The called
`PrivilegeService.check_user_has_privilege` is not defined anywhere under
the repository sources (only invoked), so it is passed in abstractly as
`chup`, applied to the user id and the `p.split(':')` segments exactly as
at line 69.  The superuser branch returns before `chup` is ever consulted. -/
def require_privileges (chup : String → List String → Bool)
    (privileges : List String) (current_user : User) : Except (Nat × String) Unit :=
  if current_user.is_superuser then
    .ok ()
  else
    let missing := privileges.filter (fun p => !chup current_user.id (p.splitOn ":"))
    if missing.isEmpty then
      .ok ()
    else
      .error (403, "Missing privileges: " ++ String.intercalate ", " missing)

/-- The grant condition exactly as the specification words it: some granted
privilege name `g` equals the required name, or ends in `":*"` with equal
prefixes before `':'`, or is one of the global wildcards. -/
def grantedMatchesSpec (g required : String) : Prop :=
  g = required
    ∨ (pyEndsWithColonStar g = true ∧ pySplitHead g = pySplitHead required)
    ∨ g = "*" ∨ g = "*:*"

instance (g required : String) : Decidable (grantedMatchesSpec g required) := by
  unfold grantedMatchesSpec; infer_instance

/-- JWT claims used by `src/core/security.py`: `exp`, `sub`, and the
refresh-marker `type`.  Absent claims are `none` (Python `payload.get`). -/
structure JwtPayload where
  exp : Option Int
  sub : Option String
  type : Option String
deriving DecidableEq

/-- A signed compact token, abstracted to its payload plus the key and
algorithm it was signed with (`jwt.encode(to_encode, key, algorithm)`).
The compact serialization is injective in these components, so equality of
`Token` values models equality of the wire strings. -/
structure Token where
  payload : JwtPayload
  key : String
  alg : String
deriving DecidableEq

/-- `jose.JWTError` as raised by `jwt.decode`: signature/format failure or
an expired `exp` claim (jose validates `exp` during decode by default). -/
inductive JWTError where
  | invalid
  | expired
deriving DecidableEq

/-- The `settings` fields consumed by `src/core/security.py`. -/
structure Settings where
  JWT_SECRET_KEY : String
  JWT_ALGORITHM : String
  ACCESS_TOKEN_EXPIRE_MINUTES : Int
deriving DecidableEq

/-- `jwt.decode(token, key, algorithms)` at time `now`: the signature
verifies iff the token was produced with the same key and an accepted
algorithm; a present `exp` at or before `now` raises (expired). -/
def jwtDecode (tok : Token) (key : String) (algs : List String) (now : Int) :
    Except JWTError JwtPayload :=
  if tok.key == key && algs.contains tok.alg then
    match tok.payload.exp with
    | some e => if e ≤ now then .error .expired else .ok tok.payload
    | none => .ok tok.payload
  else .error .invalid

/-- Error raised by the `redis` client when the store is unreachable. -/
inductive RedisErr where
  | unreachable
deriving DecidableEq

/-- The Revocation Store: a reachability flag plus the blacklist entries,
each carrying its absolute expiry instant (`SETEX` key lifetime). -/
structure RedisState where
  reachable : Bool
  entries : List (Token × Int)
deriving DecidableEq

/-- `_blacklist_key` (`src/core/security.py` lines 53-54) builds
`f"bl:{token}"`; since the store is keyed only by such strings and the
compact token serialization is injective, the key space is embedded as the
token value itself. -/
def blacklist_key (token : Token) : Token := token

/-- `redis_client.setex(key, ttl, value)`: raises when unreachable,
otherwise (re)binds the key with lifetime `ttl` from `now`. -/
def redisSetex (st : RedisState) (now : Int) (key : Token) (ttl : Int) :
    Except RedisErr RedisState :=
  if st.reachable then
    .ok { st with entries := (key, now + ttl) :: st.entries.filter (fun e => !(e.1 == key)) }
  else .error .unreachable

/-- `redis_client.exists(key)`: raises when unreachable, otherwise counts
the unexpired bindings of the key (0 or 1). -/
def redisExists (st : RedisState) (now : Int) (key : Token) : Except RedisErr Nat :=
  if st.reachable then
    .ok (if st.entries.any (fun e => e.1 == key && decide (now < e.2)) then 1 else 0)
  else .error .unreachable

/-- `create_access_token` (`src/core/security.py` lines 38-44): expiry is
`now` plus the given delta, or the configured default minutes; the payload
is `{"exp": expire, "sub": str(subject)}` with no `type` claim.  Times and
deltas are in seconds. -/
def create_access_token (settings : Settings) (now : Int) (subject : String)
    (expires_delta : Option Int) : Token :=
  let expire : Int :=
    match expires_delta with
    | some d => now + d
    | none => now + settings.ACCESS_TOKEN_EXPIRE_MINUTES * 60
  { payload := { exp := some expire, sub := some subject, type := none },
    key := settings.JWT_SECRET_KEY, alg := settings.JWT_ALGORITHM }

/-- `revoke_token` (`src/core/security.py` lines 57-71): decode the token
(a `JWTError`, including expiry, is swallowed — nothing to do); when a
truthy `exp` is present and `ttl = exp - now` is positive, write the
blacklist entry, swallowing a `RedisError` (best-effort write). -/
def revoke_token (settings : Settings) (st : RedisState) (now : Int)
    (token : Token) : RedisState :=
  match jwtDecode token settings.JWT_SECRET_KEY [settings.JWT_ALGORITHM] now with
  | .error _ => st
  | .ok payload =>
    match payload.exp with
    | none => st
    | some e =>
      if e == 0 then st
      else
        let ttl := e - now
        if ttl > 0 then
          match redisSetex st now (blacklist_key token) ttl with
          | .error _ => st
          | .ok st2 => st2
        else st

/-- `is_token_revoked` (`src/core/security.py` lines 74-75): compares the
`exists` count with 1.  No handler — a store error propagates. -/
def is_token_revoked (st : RedisState) (now : Int) (token : Token) :
    Except RedisErr Bool :=
  (redisExists st now (blacklist_key token)).map (fun n => n == 1)

/-- How a call of the token-validation path terminates: an
`HTTPException(status, detail)`, or an uncaught Revocation Store error
propagating out of `is_token_revoked`. -/
inductive AuthFailure where
  | http : Nat → String → AuthFailure
  | storeError : AuthFailure
deriving DecidableEq

/-- `get_current_user` (`src/core/security.py` lines 78-98): revocation
check first (an unreachable store propagates uncaught), then decode; a
missing/falsy `sub` or a `type == "refresh"` claim is a 401; a decoded
token whose subject row is absent is a **404** `"User not found"`. -/
def get_current_user (settings : Settings) (db : List User) (st : RedisState)
    (now : Int) (token : Token) : Except AuthFailure User :=
  match is_token_revoked st now token with
  | .error _ => .error .storeError
  | .ok true => .error (.http 401 "Token has been revoked")
  | .ok false =>
    match jwtDecode token settings.JWT_SECRET_KEY [settings.JWT_ALGORITHM] now with
    | .error _ => .error (.http 401 "Could not validate credentials")
    | .ok payload =>
      let user_id := payload.sub.getD ""
      if user_id == "" || payload.type == some "refresh" then
        .error (.http 401 "Could not validate credentials")
      else
        match db.find? (fun u => u.id == user_id) with
        | none => .error (.http 404 "User not found")
        | some user => .ok user

/-- `AuthService.get_current_user` (`src/services/auth_service.py` lines
185-201): same shape, but only `sub is None` is rejected after decode, and
the absent-user outcome is again a **404** `"User not found"`. -/
def auth_service_get_current_user (settings : Settings) (db : List User)
    (st : RedisState) (now : Int) (token : Token) : Except AuthFailure User :=
  match is_token_revoked st now token with
  | .error _ => .error .storeError
  | .ok true => .error (.http 401 "Token revoked")
  | .ok false =>
    match jwtDecode token settings.JWT_SECRET_KEY [settings.JWT_ALGORITHM] now with
    | .error _ => .error (.http 401 "Invalid token")
    | .ok payload =>
      match payload.sub with
      | none => .error (.http 401 "Invalid token")
      | some sub =>
        match db.find? (fun u => u.id == sub) with
        | none => .error (.http 404 "User not found")
        | some user => .ok user

/-- The Privilege table together with the id sequence, as threaded through
`PrivilegeRepository` (`src/repositories/privilege_repository.py`). -/
structure PrivDB where
  privileges : List Privilege
  nextId : Nat
deriving DecidableEq

/-- `PrivilegeRepository.get_by_entity_and_action` (lines 38-55): first
non-deleted row matching entity and action. -/
def get_by_entity_and_action (db : PrivDB) (entity action : String) :
    Option Privilege :=
  db.privileges.find?
    (fun p => p.entity == entity && p.action == action && p.is_deleted == false)

/-- The `actions` dict of `create_crud_privileges` (lines 114-119) in its
Python insertion order: read, create, update, delete. -/
def crudActions (entity : String) : List (String × String) :=
  [("read", "Read " ++ entity), ("create", "Create " ++ entity),
   ("update", "Update " ++ entity), ("delete", "Delete " ++ entity)]

/-- The `for action, description in actions.items()` loop of
`create_crud_privileges` (lines 123-140): reuse the existing privilege when
found, otherwise create `f"{entity.lower()}:{action}"` and append it to the
session; the result list collects the four in iteration order. -/
def createCrudGo (entity : String) :
    List (String × String) → PrivDB → List Privilege × PrivDB
  | [], db => ([], db)
  | (action, description) :: rest, db =>
    match get_by_entity_and_action db entity action with
    | some privilege =>
      let result := createCrudGo entity rest db
      (privilege :: result.1, result.2)
    | none =>
      let new_privilege : Privilege :=
        { id := db.nextId, name := entity.toLower ++ ":" ++ action,
          description := description, entity := entity, action := action,
          is_deleted := false }
      let db2 : PrivDB := { privileges := db.privileges ++ [new_privilege],
                            nextId := db.nextId + 1 }
      let result := createCrudGo entity rest db2
      (new_privilege :: result.1, result.2)

/-- `PrivilegeRepository.create_crud_privileges` (lines 104-142). -/
def create_crud_privileges (db : PrivDB) (entity : String) :
    List Privilege × PrivDB :=
  createCrudGo entity (crudActions entity) db

lemma privilegeMatches_iff (g r : String) :
    privilegeMatches g r = true ↔ grantedMatchesSpec g r := by
  simp only [privilegeMatches, grantedMatchesSpec, Bool.or_eq_true, Bool.and_eq_true,
    beq_iff_eq]
  tauto

lemma ite_isEmpty_any (l : List α) (f : α → Bool) :
    (if l.isEmpty then false else l.any f) = l.any f := by
  cases l <;> simp

/-- **C1.** For every non-superadmin, active, non-soft-deleted user, when every
active non-deleted role carries no blanket-access flag and holds only
non-deleted privileges, `check_permission` returns true if and only if some
granted privilege name matches the required one exactly, by the `":*"`
resource wildcard with equal prefixes before `':'`, or by the global
wildcards `"*"` / `"*:*"`; otherwise it returns false (deny-by-default). -/
theorem check_permission_iff_granted_match
    (required : String) (db : List User) (cu : CurrentUser) (u : User)
    (hsa : cu.is_superadmin = false)
    (hfind : db.find? (fun x => x.id == cu.user_id) = some u)
    (hdel : u.is_deleted = false) (hact : u.is_active = true)
    (hadmin : ∀ r ∈ u.roles, r.is_deleted = false → r.is_active = true →
      r.is_admin = false)
    (hpriv : ∀ r ∈ u.roles, r.is_deleted = false → r.is_active = true →
      ∀ p ∈ r.privileges, p.is_deleted = false) :
    check_permission required db cu = true ↔
      ∃ r ∈ u.roles, r.is_deleted = false ∧ r.is_active = true ∧
        ∃ p ∈ r.privileges, grantedMatchesSpec p.name required := by
  unfold check_permission
  rw [hsa, hfind]
  simp only [Bool.false_eq_true, if_false, hdel, hact, Bool.not_true, Bool.or_self,
    ite_isEmpty_any, List.any_eq_true]
  constructor
  · rintro ⟨r, hr, hf⟩
    rw [List.mem_filter] at hr
    obtain ⟨hrmem, hq⟩ := hr
    have hqd : r.is_deleted = false ∧ r.is_active = true := by
      revert hq; cases r.is_deleted <;> cases r.is_active <;> simp
    refine ⟨r, hrmem, hqd.1, hqd.2, ?_⟩
    rw [hadmin r hrmem hqd.1 hqd.2] at hf
    rw [List.filter_eq_self.mpr (by
      intro p hp
      simp [hpriv r hrmem hqd.1 hqd.2 p hp])] at hf
    simp only [Bool.false_or, List.any_eq_true] at hf
    obtain ⟨p, hp, hm⟩ := hf
    exact ⟨p, hp, (privilegeMatches_iff p.name required).mp hm⟩
  · rintro ⟨r, hrmem, hd, ha, p, hp, hm⟩
    refine ⟨r, ?_, ?_⟩
    · rw [List.mem_filter]
      exact ⟨hrmem, by simp [hd, ha]⟩
    · simp only [Bool.or_eq_true]
      right
      rw [List.any_eq_true]
      refine ⟨p, ?_, (privilegeMatches_iff p.name required).mpr hm⟩
      rw [List.mem_filter]
      exact ⟨hp, by simp [hpriv r hrmem hd ha p hp]⟩

/-- Witness for C1 at a concrete input: user `u1` whose single active role
`viewer` holds privilege `"sample:*"` is granted `"sample:read"`. -/
theorem check_permission_iff_granted_match_witness :
    check_permission "sample:read"
      [⟨"u1", true, false, false,
        [⟨1, "viewer", false, true, false, [⟨1, "sample:*", "", "sample", "*", false⟩]⟩]⟩]
      ⟨false, "u1"⟩ = true :=
  (check_permission_iff_granted_match "sample:read"
      [⟨"u1", true, false, false,
        [⟨1, "viewer", false, true, false, [⟨1, "sample:*", "", "sample", "*", false⟩]⟩]⟩]
      ⟨false, "u1"⟩
      ⟨"u1", true, false, false,
        [⟨1, "viewer", false, true, false, [⟨1, "sample:*", "", "sample", "*", false⟩]⟩]⟩
      rfl (by decide) rfl rfl (by decide) (by decide)).mpr
    ⟨⟨1, "viewer", false, true, false, [⟨1, "sample:*", "", "sample", "*", false⟩]⟩,
      by decide, rfl, rfl,
      ⟨1, "sample:*", "", "sample", "*", false⟩, by decide, by decide⟩

/-- **C2 counterexample.** A soft-deleted/inactive check alone does not
decide the outcome: the superadmin flag is consulted first
(`src/_old/policies.py` line 36), so an inactive user whose authenticated
principal carries `is_superadmin` is granted — refuting the claim that
inactive users are denied regardless of every other user flag. -/
theorem inactive_superadmin_counterexample :
    check_permission "sample:read"
      [⟨"u1", false, true, false,
        [⟨1, "viewer", false, true, false,
          [⟨1, "sample:read", "", "sample", "read", false⟩]⟩]⟩]
      ⟨true, "u1"⟩ = true := by decide

/-- **C2 (amended).** For every non-superadmin principal whose user row is
inactive or soft-deleted, `check_permission` returns false for every
required privilege string, regardless of role and privilege assignments. -/
theorem inactive_or_deleted_denied
    (required : String) (db : List User) (cu : CurrentUser) (u : User)
    (hsa : cu.is_superadmin = false)
    (hfind : db.find? (fun x => x.id == cu.user_id) = some u)
    (hdead : u.is_deleted = true ∨ u.is_active = false) :
    check_permission required db cu = false := by
  unfold check_permission
  rw [hsa, hfind]
  rcases hdead with h | h <;> simp [h]

/-- Witness for the amended C2: an inactive user holding an exactly-matching
privilege through an active role is still denied. -/
theorem inactive_or_deleted_denied_witness :
    check_permission "sample:read"
      [⟨"u2", false, false, false,
        [⟨1, "viewer", false, true, false,
          [⟨1, "sample:read", "", "sample", "read", false⟩]⟩]⟩]
      ⟨false, "u2"⟩ = false :=
  inactive_or_deleted_denied "sample:read"
    [⟨"u2", false, false, false,
      [⟨1, "viewer", false, true, false,
        [⟨1, "sample:read", "", "sample", "read", false⟩]⟩]⟩]
    ⟨false, "u2"⟩
    ⟨"u2", false, false, false,
      [⟨1, "viewer", false, true, false,
        [⟨1, "sample:read", "", "sample", "read", false⟩]⟩]⟩
    rfl (by decide) (Or.inr rfl)

/-- **C6.** A superadmin principal makes `check_permission` grant every
required privilege string without any role traversal, and a superuser user
makes `require_privileges` succeed for every privilege list without the
(undefined) `check_user_has_privilege` ever being consulted. -/
theorem superuser_grants_all
    (required : String) (db : List User) (cu : CurrentUser)
    (chup : String → List String → Bool) (privs : List String) (u : User)
    (hsa : cu.is_superadmin = true) (hsu : u.is_superuser = true) :
    check_permission required db cu = true ∧
      require_privileges chup privs u = .ok () := by
  constructor
  · unfold check_permission; rw [hsa]; simp
  · unfold require_privileges; rw [hsu]; simp

/-- Witness for C6: the superuser bypass fires even for a nonsense
privilege string that is not a well-formed `entity:action` name. -/
theorem superuser_grants_all_witness :
    check_permission "!!not a privilege!!" [] ⟨true, "root"⟩ = true ∧
      require_privileges (fun _ _ => false) ["garbage", "::"]
        ⟨"root", true, true, false, []⟩ = .ok () :=
  superuser_grants_all "!!not a privilege!!" [] ⟨true, "root"⟩
    (fun _ _ => false) ["garbage", "::"] ⟨"root", true, true, false, []⟩ rfl rfl

lemma pyHeadSplitAux_eq_self {l : List Char} (h : ∀ c ∈ l, c ≠ ':') :
    pyHeadSplitAux l = l := by
  induction l with
  | nil => rfl
  | cons c cs ih =>
    simp only [pyHeadSplitAux, if_neg (h c (List.mem_cons_self c cs))]
    rw [ih (fun x hx => h x (List.mem_cons_of_mem c hx))]

lemma pyHeadSplitAux_append {l : List Char} (rest : List Char)
    (h : ∀ c ∈ l, c ≠ ':') : pyHeadSplitAux (l ++ ':' :: rest) = l := by
  induction l with
  | nil => simp [pyHeadSplitAux]
  | cons c cs ih =>
    simp only [List.cons_append, pyHeadSplitAux,
      if_neg (h c (List.mem_cons_self c cs))]
    exact congrArg (c :: ·) (ih (fun x hx => h x (List.mem_cons_of_mem c hx)))

lemma pySplitHead_eq_self {s : String} (h : ∀ c ∈ s.data, c ≠ ':') :
    pySplitHead s = s := by
  unfold pySplitHead
  rw [pyHeadSplitAux_eq_self h]

lemma pySplitHead_append_colon_star {s : String} (h : ∀ c ∈ s.data, c ≠ ':') :
    pySplitHead (s ++ ":*") = s := by
  unfold pySplitHead
  have hd : (s ++ ":*").data = s.data ++ ':' :: ['*'] := by
    simp [String.data_append]
  rw [hd, pyHeadSplitAux_append ['*'] h]

lemma pyEndsWithColonStar_append (s : String) :
    pyEndsWithColonStar (s ++ ":*") = true := by
  simp only [pyEndsWithColonStar, String.data_append]
  rw [List.isSuffixOf_iff_suffix]
  exact List.suffix_append s.data [':', '*']

/-- **C10.** For every required privilege string `s` containing no colon,
`split(":")[0]` is `s` itself, so a granted privilege named `s ++ ":*"`
matches the colonless required string — both at the matcher and through
`check_permission` for a user holding that wildcard through an active
role. -/
theorem colonless_required_matches_resource_wildcard
    (s : String) (hs : ∀ c ∈ s.data, c ≠ ':') :
    pySplitHead s = s ∧
    privilegeMatches (s ++ ":*") s = true ∧
    check_permission s
      [⟨"u1", true, false, false,
        [⟨1, "viewer", false, true, false, [⟨1, s ++ ":*", "", s, "*", false⟩]⟩]⟩]
      ⟨false, "u1"⟩ = true := by
  have h1 : pySplitHead s = s := pySplitHead_eq_self hs
  have h2 : privilegeMatches (s ++ ":*") s = true := by
    simp only [privilegeMatches, pyEndsWithColonStar_append,
      pySplitHead_append_colon_star hs, h1, Bool.true_and, beq_self_eq_true,
      Bool.or_true, Bool.true_or]
  refine ⟨h1, h2, ?_⟩
  simp [check_permission, List.find?, List.filter, List.any, h2]

/-- Witness for C10 at the colonless required string `"sample"`. -/
theorem colonless_required_matches_resource_wildcard_witness :
    pySplitHead "sample" = "sample" ∧
    privilegeMatches ("sample" ++ ":*") "sample" = true ∧
    check_permission "sample"
      [⟨"u1", true, false, false,
        [⟨1, "viewer", false, true, false,
          [⟨1, "sample" ++ ":*", "", "sample", "*", false⟩]⟩]⟩]
      ⟨false, "u1"⟩ = true :=
  colonless_required_matches_resource_wildcard "sample" (by decide)

/-- **C3 counterexample.** At a concrete valid token whose subject `"u1"` is
absent from an empty Credential Store, `get_current_user` fails with
HTTP 404 `"User not found"`, which is a different outward status from the
401 used for malformed tokens — refuting the claim that both map to the
same Unauthenticated outcome. -/
theorem user_not_found_counterexample :
    get_current_user ⟨"secret", "HS256", 30⟩ [] ⟨true, []⟩ 0
      ⟨⟨some 100, some "u1", none⟩, "secret", "HS256"⟩
      = .error (.http 404 "User not found") ∧
    AuthFailure.http 404 "User not found"
      ≠ AuthFailure.http 401 "Could not validate credentials" :=
  ⟨by rfl, by decide⟩

/-- **C3 (amended).** When the token decodes successfully but the subject
user is absent, both `get_current_user` implementations fail with
HTTP 404 `"User not found"` — an outward status distinct from the 401 of a
malformed or invalid token, so callers can distinguish the two cases. -/
theorem user_not_found_is_404
    (settings : Settings) (db : List User) (st : RedisState) (now : Int)
    (token : Token) (sub : String)
    (hnr : is_token_revoked st now token = .ok false)
    (hdec : jwtDecode token settings.JWT_SECRET_KEY [settings.JWT_ALGORITHM] now
      = .ok token.payload)
    (hsub : token.payload.sub = some sub) (hne : sub ≠ "")
    (htype : token.payload.type ≠ some "refresh")
    (hfind : db.find? (fun u => u.id == sub) = none) :
    get_current_user settings db st now token = .error (.http 404 "User not found") ∧
    auth_service_get_current_user settings db st now token
      = .error (.http 404 "User not found") := by
  constructor
  · unfold get_current_user
    rw [hnr, hdec]
    simp [hsub, hne, htype, hfind]
  · unfold auth_service_get_current_user
    rw [hnr, hdec]
    simp [hsub, hfind]

/-- Witness for the amended C3 at a concrete valid token and empty store. -/
theorem user_not_found_is_404_witness :
    get_current_user ⟨"secret", "HS256", 30⟩ [] ⟨true, []⟩ 0
      ⟨⟨some 100, some "u1", none⟩, "secret", "HS256"⟩
      = .error (.http 404 "User not found") ∧
    auth_service_get_current_user ⟨"secret", "HS256", 30⟩ [] ⟨true, []⟩ 0
      ⟨⟨some 100, some "u1", none⟩, "secret", "HS256"⟩
      = .error (.http 404 "User not found") :=
  user_not_found_is_404 ⟨"secret", "HS256", 30⟩ [] ⟨true, []⟩ 0
    ⟨⟨some 100, some "u1", none⟩, "secret", "HS256"⟩ "u1"
    rfl rfl rfl (by decide) (by decide) rfl

/-- **C5 counterexample.** With the Revocation Store unreachable,
`get_current_user` terminates with the propagated store error, not with the
Unauthenticated (401) outcome the claim states. -/
theorem store_unreachable_counterexample :
    get_current_user ⟨"secret", "HS256", 30⟩ [] ⟨false, []⟩ 0
      ⟨⟨some 100, some "u1", none⟩, "secret", "HS256"⟩
      = .error .storeError ∧
    AuthFailure.storeError ≠ AuthFailure.http 401 "Token has been revoked" :=
  ⟨by rfl, by decide⟩

/-- **C5 (amended).** When the Revocation Store is unreachable during the
revocation-check read, `get_current_user` never treats the token as
not-revoked and never returns a user: the `RedisError` raised inside
`is_token_revoked` propagates uncaught (an unhandled store error rather
than the Unauthenticated outcome). -/
theorem store_unreachable_propagates
    (settings : Settings) (db : List User) (st : RedisState) (now : Int)
    (token : Token) (h : st.reachable = false) :
    get_current_user settings db st now token = .error .storeError := by
  unfold get_current_user is_token_revoked redisExists blacklist_key
  simp [h, Except.map]

/-- Witness for the amended C5 at a concrete unreachable store. -/
theorem store_unreachable_propagates_witness :
    get_current_user ⟨"secret", "HS256", 30⟩ [] ⟨false, []⟩ 0
      ⟨⟨some 100, some "u1", none⟩, "secret", "HS256"⟩
      = .error .storeError :=
  store_unreachable_propagates ⟨"secret", "HS256", 30⟩ [] ⟨false, []⟩ 0
    ⟨⟨some 100, some "u1", none⟩, "secret", "HS256"⟩ rfl

/-- **C7.** For a well-formed token whose `exp` lies in the future, after a
successful `revoke_token` write, `get_current_user` at any later instant
before expiry fails with 401 `"Token has been revoked"` — for every
Credential Store, since the revocation check runs before signature/expiry
decoding and the subject lookup. -/
theorem revoke_then_validate_revoked
    (settings : Settings) (st : RedisState) (db : List User)
    (token : Token) (now now2 e : Int)
    (hreach : st.reachable = true)
    (hkey : token.key = settings.JWT_SECRET_KEY)
    (halg : token.alg = settings.JWT_ALGORITHM)
    (hexp : token.payload.exp = some e)
    (hnow0 : 0 ≤ now) (hfut : now < e) (hfut2 : now2 < e) :
    get_current_user settings db (revoke_token settings st now token) now2 token
      = .error (.http 401 "Token has been revoked") := by
  have hdec : jwtDecode token settings.JWT_SECRET_KEY [settings.JWT_ALGORITHM] now
      = .ok token.payload := by
    unfold jwtDecode
    rw [hexp]
    simp [hkey, halg, not_le.mpr hfut]
  have hne : (e == 0) = false := by
    simp only [beq_eq_false_iff_ne, ne_eq]
    omega
  have hpos : e - now > 0 := by omega
  have hrevoke : revoke_token settings st now token
      = { st with entries := (token, now + (e - now)) ::
            st.entries.filter (fun x => !(x.1 == token)) } := by
    unfold revoke_token
    rw [hdec]
    simp [hexp, hne, hpos, redisSetex, blacklist_key, hreach]
  have heq : now + (e - now) = e := by ring
  rw [hrevoke]
  unfold get_current_user is_token_revoked redisExists blacklist_key
  simp [hreach, heq, hfut2, Except.map]

/-- Witness for C7: a token expiring at 100 revoked at time 0 is rejected
as revoked when validated at time 50, before its natural expiry. -/
theorem revoke_then_validate_revoked_witness :
    get_current_user ⟨"secret", "HS256", 30⟩ []
      (revoke_token ⟨"secret", "HS256", 30⟩ ⟨true, []⟩ 0
        ⟨⟨some 100, some "u1", none⟩, "secret", "HS256"⟩)
      50 ⟨⟨some 100, some "u1", none⟩, "secret", "HS256"⟩
      = .error (.http 401 "Token has been revoked") :=
  revoke_then_validate_revoked ⟨"secret", "HS256", 30⟩ ⟨true, []⟩ []
    ⟨⟨some 100, some "u1", none⟩, "secret", "HS256"⟩ 0 50 100
    rfl rfl rfl rfl (by decide) (by decide) (by decide)

/-- **C8.** Round-trip: a token issued by `create_access_token` for subject
`u`, validated immediately (absent from the Revocation Store, effective
expiry delta positive), carries `sub = u` and `get_current_user` succeeds,
returning the Credential Store row whose id is `u`. -/
theorem issue_then_validate_roundtrip
    (settings : Settings) (db : List User) (st : RedisState)
    (now : Int) (u : String) (expires_delta : Option Int) (usr : User)
    (hreach : st.reachable = true)
    (habsent : ∀ x ∈ st.entries,
      (x.1 == create_access_token settings now u expires_delta) = false)
    (hd : 0 < expires_delta.getD (settings.ACCESS_TOKEN_EXPIRE_MINUTES * 60))
    (hu : u ≠ "")
    (hfind : db.find? (fun x => x.id == u) = some usr) :
    (create_access_token settings now u expires_delta).payload.sub = some u ∧
    get_current_user settings db st now
      (create_access_token settings now u expires_delta) = .ok usr := by
  have hexp : (create_access_token settings now u expires_delta).payload.exp
      = some (now + expires_delta.getD (settings.ACCESS_TOKEN_EXPIRE_MINUTES * 60)) := by
    cases expires_delta <;> rfl
  have hsub : (create_access_token settings now u expires_delta).payload.sub = some u := by
    cases expires_delta <;> rfl
  have htype : (create_access_token settings now u expires_delta).payload.type = none := by
    cases expires_delta <;> rfl
  have hkey : (create_access_token settings now u expires_delta).key
      = settings.JWT_SECRET_KEY := by
    cases expires_delta <;> rfl
  have halg : (create_access_token settings now u expires_delta).alg
      = settings.JWT_ALGORITHM := by
    cases expires_delta <;> rfl
  refine ⟨hsub, ?_⟩
  have hnr : is_token_revoked st now (create_access_token settings now u expires_delta)
      = .ok false := by
    unfold is_token_revoked redisExists blacklist_key
    rw [if_pos hreach]
    rw [List.any_eq_false.mpr (by
      intro x hx
      simp [habsent x hx])]
    rfl
  have hdec : jwtDecode (create_access_token settings now u expires_delta)
      settings.JWT_SECRET_KEY [settings.JWT_ALGORITHM] now
      = .ok (create_access_token settings now u expires_delta).payload := by
    unfold jwtDecode
    rw [hexp]
    simp [hkey, halg]
    omega
  unfold get_current_user
  rw [hnr, hdec]
  simp [hsub, hu, htype, hfind]

/-- Witness for C8: subject `"u1"` with a 1800-second delta round-trips
through issuance and validation against a store holding user `"u1"`. -/
theorem issue_then_validate_roundtrip_witness :
    (create_access_token ⟨"secret", "HS256", 30⟩ 0 "u1" (some 1800)).payload.sub
      = some "u1" ∧
    get_current_user ⟨"secret", "HS256", 30⟩ [⟨"u1", true, false, false, []⟩]
      ⟨true, []⟩ 0 (create_access_token ⟨"secret", "HS256", 30⟩ 0 "u1" (some 1800))
      = .ok ⟨"u1", true, false, false, []⟩ :=
  issue_then_validate_roundtrip ⟨"secret", "HS256", 30⟩
    [⟨"u1", true, false, false, []⟩] ⟨true, []⟩ 0 "u1" (some 1800)
    ⟨"u1", true, false, false, []⟩ rfl (by simp) (by decide) (by decide) rfl

lemma createCrudGo_cons_found (entity action description : String)
    (rest : List (String × String)) (db : PrivDB) (p : Privilege)
    (hfind : get_by_entity_and_action db entity action = some p) :
    createCrudGo entity ((action, description) :: rest) db
      = (p :: (createCrudGo entity rest db).1, (createCrudGo entity rest db).2) := by
  simp only [createCrudGo, hfind]

lemma createCrudGo_cons_new (entity action description : String)
    (rest : List (String × String)) (db : PrivDB)
    (hfind : get_by_entity_and_action db entity action = none) :
    createCrudGo entity ((action, description) :: rest) db
      = (⟨db.nextId, entity.toLower ++ ":" ++ action, description, entity, action, false⟩
            :: (createCrudGo entity rest
                ⟨db.privileges ++
                  [⟨db.nextId, entity.toLower ++ ":" ++ action, description, entity,
                    action, false⟩], db.nextId + 1⟩).1,
          (createCrudGo entity rest
            ⟨db.privileges ++
              [⟨db.nextId, entity.toLower ++ ":" ++ action, description, entity,
                action, false⟩], db.nextId + 1⟩).2) := by
  simp only [createCrudGo, hfind]

lemma get_by_entity_and_action_some_action {db : PrivDB} {entity action : String}
    {p : Privilege} (h : get_by_entity_and_action db entity action = some p) :
    p.entity = entity ∧ p.action = action ∧ p.is_deleted = false := by
  have := List.find?_some (by simpa [get_by_entity_and_action] using h)
  simpa [Bool.and_eq_true, beq_iff_eq, and_assoc] using this

lemma createCrudGo_actions (entity : String) (acts : List (String × String)) :
    ∀ db : PrivDB, ((createCrudGo entity acts db).1.map (fun p => p.action))
      = acts.map Prod.fst := by
  induction acts with
  | nil => intro db; rfl
  | cons hd rest ih =>
    intro db
    obtain ⟨action, description⟩ := hd
    cases hfind : get_by_entity_and_action db entity action with
    | some p =>
      rw [createCrudGo_cons_found entity action description rest db p hfind]
      simp [ih, (get_by_entity_and_action_some_action hfind).2.1]
    | none =>
      rw [createCrudGo_cons_new entity action description rest db hfind]
      simp [ih]

lemma find?_append_some {α : Type} {l1 l2 : List α} {p : α → Bool} {a : α}
    (h : l1.find? p = some a) : (l1 ++ l2).find? p = some a := by
  rw [List.find?_append, h]
  rfl

lemma find?_append_none {α : Type} {l1 l2 : List α} {p : α → Bool}
    (h : l1.find? p = none) : (l1 ++ l2).find? p = l2.find? p := by
  rw [List.find?_append, h]
  rfl

lemma createCrudGo_privileges_extend (entity : String) (acts : List (String × String)) :
    ∀ db : PrivDB, ∃ ext : List Privilege,
      (createCrudGo entity acts db).2.privileges = db.privileges ++ ext ∧
      ∀ p ∈ ext, p.action ∈ acts.map Prod.fst := by
  induction acts with
  | nil =>
    intro db
    exact ⟨[], by simp [createCrudGo], by simp⟩
  | cons hd rest ih =>
    intro db
    obtain ⟨action, description⟩ := hd
    cases hfind : get_by_entity_and_action db entity action with
    | some p =>
      obtain ⟨ext, he, hmem⟩ := ih db
      rw [createCrudGo_cons_found entity action description rest db p hfind]
      exact ⟨ext, he, fun q hq => List.mem_cons_of_mem _ (hmem q hq)⟩
    | none =>
      obtain ⟨ext, he, hmem⟩ := ih
        ⟨db.privileges ++
          [⟨db.nextId, entity.toLower ++ ":" ++ action, description, entity, action, false⟩],
          db.nextId + 1⟩
      rw [createCrudGo_cons_new entity action description rest db hfind]
      refine ⟨⟨db.nextId, entity.toLower ++ ":" ++ action, description, entity, action, false⟩
          :: ext, ?_, ?_⟩
      · simpa using he
      · intro q hq2
        rcases List.mem_cons.mp hq2 with rfl | hq3
        · simp
        · exact List.mem_cons_of_mem _ (hmem q hq3)

lemma createCrudGo_idem (entity : String) (acts : List (String × String)) :
    ∀ db : PrivDB, (acts.map Prod.fst).Nodup →
      createCrudGo entity acts (createCrudGo entity acts db).2
        = createCrudGo entity acts db := by
  induction acts with
  | nil => intro db _; rfl
  | cons hd rest ih =>
    intro db hnodup
    obtain ⟨action, description⟩ := hd
    have hnd : action ∉ rest.map Prod.fst ∧ (rest.map Prod.fst).Nodup := by
      constructor
      · exact (List.nodup_cons.mp (by simpa using hnodup)).1
      · exact (List.nodup_cons.mp (by simpa using hnodup)).2
    cases hfind : get_by_entity_and_action db entity action with
    | some p =>
      obtain ⟨ext, he, hmem⟩ := createCrudGo_privileges_extend entity rest db
      have hfind2 : get_by_entity_and_action (createCrudGo entity rest db).2
          entity action = some p := by
        unfold get_by_entity_and_action at hfind ⊢
        rw [he]
        exact find?_append_some hfind
      simp only [createCrudGo_cons_found entity action description rest db p hfind]
      rw [createCrudGo_cons_found entity action description rest _ p hfind2, ih _ hnd.2]
    | none =>
      have hnew : get_by_entity_and_action
          ⟨db.privileges ++
            [⟨db.nextId, entity.toLower ++ ":" ++ action, description, entity, action,
              false⟩], db.nextId + 1⟩ entity action
          = some ⟨db.nextId, entity.toLower ++ ":" ++ action, description, entity,
              action, false⟩ := by
        unfold get_by_entity_and_action at hfind ⊢
        rw [find?_append_none hfind]
        simp [List.find?]
      obtain ⟨ext, he, hmem⟩ := createCrudGo_privileges_extend entity rest
        ⟨db.privileges ++
          [⟨db.nextId, entity.toLower ++ ":" ++ action, description, entity, action,
            false⟩], db.nextId + 1⟩
      have hfind2 : get_by_entity_and_action
          (createCrudGo entity rest
            ⟨db.privileges ++
              [⟨db.nextId, entity.toLower ++ ":" ++ action, description, entity, action,
                false⟩], db.nextId + 1⟩).2 entity action
          = some ⟨db.nextId, entity.toLower ++ ":" ++ action, description, entity,
              action, false⟩ := by
        unfold get_by_entity_and_action at hnew ⊢
        rw [he]
        exact find?_append_some hnew
      simp only [createCrudGo_cons_new entity action description rest db hfind]
      rw [createCrudGo_cons_found entity action description rest _ _ hfind2, ih _ hnd.2]

/-- **C4 counterexample.** On an empty Privilege table and entity
`"widget"`, `create_crud_privileges` returns the four privileges in action
order `[read, create, update, delete]` — the Python dict's insertion
order — not the claimed `[create, read, update, delete]`. -/
theorem create_crud_privileges_order_counterexample :
    (create_crud_privileges ⟨[], 0⟩ "widget").1.map (fun p => p.action)
      = ["read", "create", "update", "delete"] ∧
    (create_crud_privileges ⟨[], 0⟩ "widget").1.map (fun p => p.action)
      ≠ ["create", "read", "update", "delete"] := by decide

/-- **C4 (amended).** For every store state and entity name,
`create_crud_privileges` returns exactly four Privileges, one per action in
{create, read, update, delete}, in the stable list order
`[read, create, update, delete]`. -/
theorem create_crud_privileges_four_actions (db : PrivDB) (entity : String) :
    (create_crud_privileges db entity).1.map (fun p => p.action)
      = ["read", "create", "update", "delete"] ∧
    (create_crud_privileges db entity).1.length = 4 := by
  have h := createCrudGo_actions entity (crudActions entity) db
  constructor
  · simpa [crudActions] using h
  · have h2 := congrArg List.length h
    simpa [crudActions, List.length_map] using h2

/-- **C9.** Idempotence: a second `create_crud_privileges` call for the same
entity returns exactly the first call's four privileges and leaves the
store state unchanged (no duplicates, no mutation); moreover any call only
appends to the privilege table, never altering an existing row. -/
theorem create_crud_privileges_idempotent (db : PrivDB) (entity : String) :
    create_crud_privileges (create_crud_privileges db entity).2 entity
      = create_crud_privileges db entity ∧
    ∃ ext : List Privilege,
      (create_crud_privileges db entity).2.privileges = db.privileges ++ ext := by
  constructor
  · exact createCrudGo_idem entity (crudActions entity) db (by simp [crudActions])
  · obtain ⟨ext, he, _⟩ := createCrudGo_privileges_extend entity (crudActions entity) db
    exact ⟨ext, he⟩
